import Mathlib

/-!
Verification of the notion2prompt fetch-cache-render pipeline.

The repository's Python surface (`cli.py`, `__init__.py`) is thin glue over a
compiled backend exposing `fetch_and_render`, `fetch_content` and
`render_content`.  The pipeline itself (tree fetcher, coalescing cache,
renderer, orchestrator) is modelled here from the specification; the CLI
binding layer is embedded directly from `src/python/notion2prompt/cli.py`.
-/

namespace Notion2Prompt

/-- Kind of a content node: page, database or block. -/
inductive NodeKind where
  | page
  | database
  | block
deriving DecidableEq, Repr

/-- Modelled from the spec: node-local data held by the remote graph for one
content id — kind, title, property map and the ordered ids of its children. -/
structure NodeData where
  kind : NodeKind
  title : String
  props : List (String × String)
  children : List Nat
deriving Repr

/-- Modelled from the spec: the remote document graph, a finite map from
content id to node data (the same node may be reachable from many parents). -/
def Graph : Type := List (Nat × NodeData)

/-- Look up a node id in the remote graph. -/
def lookupNode (g : Graph) (id : Nat) : Option NodeData :=
  match g with
  | [] => none
  | (k, nd) :: rest => if k = id then some nd else lookupNode rest id

/-- Modelled from the spec (§3 PipelineConfig): immutable configuration
snapshot for one pipeline invocation. -/
structure Config where
  maxDepth : Nat
  limit : Nat
  template : String
  alwaysFetchDatabases : Bool
  includeProperties : Bool
  instruction : Option String
  noCache : Bool
  cacheTtl : Nat
deriving Repr

/-- ContentNode (§3): one node of the fetched tree — id, kind, title,
properties and fetched children in document order. -/
inductive ContentNode where
  | mk (id : Nat) (kind : NodeKind) (title : String)
       (props : List (String × String)) (children : List ContentNode)

/-- The fetched children of a content node. -/
def ContentNode.children : ContentNode → List ContentNode
  | .mk _ _ _ _ cs => cs

/-- The kind of a content node. -/
def ContentNode.kind : ContentNode → NodeKind
  | .mk _ k _ _ _ => k

mutual

/-- Modelled from the spec (§4.4 Tree Fetcher): fetch one node.  `items` is the
remaining global item budget, threaded through the whole traversal; `depth` is
the remaining depth allowance.  When the budget is zero nothing is fetched.
When the depth allowance is exhausted the node keeps no children unless it is
a database and `always_fetch_databases` is set, in which case its children are
fetched ignoring the depth check but still bounded by the item budget.  `fuel`
only guarantees termination and is chosen larger than the item budget. -/
def fetchGo (g : Graph) (cfg : Config) (fuel : Nat) (id : Nat) (depth : Nat)
    (items : Nat) : Option ContentNode × Nat :=
  match fuel with
  | 0 => (none, items)
  | fuel + 1 =>
    if items = 0 then (none, 0)
    else
      match lookupNode g id with
      | none => (none, items)
      | some nd =>
        let items1 := items - 1
        if 0 < depth then
          let r := fetchList g cfg fuel nd.children (depth - 1) items1
          (some (.mk id nd.kind nd.title nd.props r.1), r.2)
        else if nd.kind = NodeKind.database ∧ cfg.alwaysFetchDatabases = true then
          let r := fetchList g cfg fuel nd.children 0 items1
          (some (.mk id nd.kind nd.title nd.props r.1), r.2)
        else
          (some (.mk id nd.kind nd.title nd.props []), items1)
termination_by (fuel, 0)

/-- Modelled from the spec (§4.4): fetch a list of sibling ids in document
order, all siblings competing for the one shared item budget. -/
def fetchList (g : Graph) (cfg : Config) (fuel : Nat) (ids : List Nat)
    (depth : Nat) (items : Nat) : List ContentNode × Nat :=
  match ids with
  | [] => ([], items)
  | id :: rest =>
    let r1 := fetchGo g cfg fuel id depth items
    let r2 := fetchList g cfg fuel rest depth r1.2
    (match r1.1 with
     | some n => n :: r2.1
     | none => r2.1, r2.2)
termination_by (fuel, ids.length + 1)

end

/-- Modelled from the spec (§4.6 / §4.4): `fetch_content` run — resolve the
root id and walk the tree with budget `FetchBudget (depth := maxDepth,
items := limit)`; also returns the unspent item budget. -/
def fetchRun (g : Graph) (cfg : Config) (id : Nat) : Option ContentNode × Nat :=
  fetchGo g cfg (cfg.limit + 1) id cfg.maxDepth cfg.limit

/-- Modelled from the spec (§4.6): `fetch_content(notion_id, config)` returns
the completed bounded tree. -/
def fetch_content (g : Graph) (cfg : Config) (id : Nat) : Option ContentNode :=
  (fetchRun g cfg id).1

mutual

/-- Number of content items in a tree. -/
def nodeSize : ContentNode → Nat
  | .mk _ _ _ _ cs => 1 + listSize cs

/-- Number of content items in a forest. -/
def listSize : List ContentNode → Nat
  | [] => 0
  | c :: cs => nodeSize c + listSize cs

end

/-- Number of content items in an optional tree. -/
def sizeOpt : Option ContentNode → Nat
  | none => 0
  | some n => nodeSize n

mutual

/-- Height of a tree: how many levels the deepest node lies below the root. -/
def nodeHeight : ContentNode → Nat
  | .mk _ _ _ _ cs => listHeight cs

/-- One more than the largest height in the forest (0 for an empty forest). -/
def listHeight : List ContentNode → Nat
  | [] => 0
  | c :: cs => max (1 + nodeHeight c) (listHeight cs)

end

mutual

/-- `dbOkNode d n` : inside the first `d` levels below `n` anything goes, but
every node at or beyond level `d` that has children is a database. -/
def dbOkNode : Nat → ContentNode → Bool
  | d + 1, .mk _ _ _ _ cs => dbOkList d cs
  | 0, .mk _ k _ _ cs =>
      (cs.isEmpty || decide (k = NodeKind.database)) && dbOkList 0 cs

/-- `dbOkList d cs` : `dbOkNode d` holds for every tree in the forest. -/
def dbOkList : Nat → List ContentNode → Bool
  | _, [] => true
  | d, c :: cs => dbOkNode d c && dbOkList d cs

end

mutual

/-- Exact accounting of the shared item budget: the items placed in the
fetched tree plus the unspent budget returned equal the budget supplied. -/
theorem fetchGo_acct (g : Graph) (cfg : Config) (fuel : Nat) (id : Nat)
    (depth : Nat) (items : Nat) :
    sizeOpt (fetchGo g cfg fuel id depth items).1
      + (fetchGo g cfg fuel id depth items).2 = items := by
  match fuel with
  | 0 => simp [fetchGo, sizeOpt]
  | fuel + 1 =>
    rw [fetchGo]
    by_cases h0 : items = 0
    · simp [h0, sizeOpt]
    · simp only [h0, if_false]
      cases hl : lookupNode g id with
      | none => simp [sizeOpt]
      | some nd =>
        dsimp only
        by_cases hd : 0 < depth
        · rw [if_pos hd]
          have hacct := fetchList_acct g cfg fuel nd.children (depth - 1) (items - 1)
          simp only [sizeOpt, nodeSize]
          omega
        · rw [if_neg hd]
          by_cases hdb : nd.kind = NodeKind.database ∧ cfg.alwaysFetchDatabases = true
          · rw [if_pos hdb]
            have hacct := fetchList_acct g cfg fuel nd.children 0 (items - 1)
            simp only [sizeOpt, nodeSize]
            omega
          · rw [if_neg hdb]
            simp only [sizeOpt, nodeSize, listSize]
            omega
termination_by (fuel, 0)

/-- Exact accounting of the shared item budget over a sibling list. -/
theorem fetchList_acct (g : Graph) (cfg : Config) (fuel : Nat) (ids : List Nat)
    (depth : Nat) (items : Nat) :
    listSize (fetchList g cfg fuel ids depth items).1
      + (fetchList g cfg fuel ids depth items).2 = items := by
  match ids with
  | [] => simp [fetchList, listSize]
  | id :: rest =>
    rw [fetchList]
    have h1 := fetchGo_acct g cfg fuel id depth items
    have h2 := fetchList_acct g cfg fuel rest depth
      (fetchGo g cfg fuel id depth items).2
    cases hr : (fetchGo g cfg fuel id depth items).1 with
    | none =>
      simp only [hr, sizeOpt] at h1
      simp only [listSize]
      omega
    | some n =>
      simp only [hr, sizeOpt] at h1
      simp only [listSize]
      omega
termination_by (fuel, ids.length + 1)

end

mutual

/-- With `always_fetch_databases` off, a fetched tree never reaches deeper
than the depth allowance it was given. -/
theorem fetchGo_height (g : Graph) (cfg : Config)
    (hflag : cfg.alwaysFetchDatabases = false) (fuel : Nat) (id : Nat)
    (depth : Nat) (items : Nat) (n : ContentNode)
    (hn : (fetchGo g cfg fuel id depth items).1 = some n) :
    nodeHeight n ≤ depth := by
  match fuel with
  | 0 => simp [fetchGo] at hn
  | fuel + 1 =>
    rw [fetchGo] at hn
    by_cases h0 : items = 0
    · simp [h0] at hn
    · simp only [h0, if_false] at hn
      cases hl : lookupNode g id with
      | none => rw [hl] at hn; exact absurd hn (by simp)
      | some nd =>
        rw [hl] at hn
        dsimp only at hn
        by_cases hd : 0 < depth
        · rw [if_pos hd] at hn
          have hh := fetchList_height g cfg hflag fuel nd.children (depth - 1)
            (items - 1)
          cases hn
          simp only [nodeHeight]
          omega
        · rw [if_neg hd] at hn
          rw [if_neg (by simp [hflag])] at hn
          cases hn
          simp [nodeHeight, listHeight]
termination_by (fuel, 0)

/-- With `always_fetch_databases` off, a fetched forest never reaches deeper
than one more than the depth allowance its members were given. -/
theorem fetchList_height (g : Graph) (cfg : Config)
    (hflag : cfg.alwaysFetchDatabases = false) (fuel : Nat) (ids : List Nat)
    (depth : Nat) (items : Nat) :
    listHeight (fetchList g cfg fuel ids depth items).1 ≤ depth + 1 := by
  match ids with
  | [] => simp [fetchList, listHeight]
  | id :: rest =>
    rw [fetchList]
    have h2 := fetchList_height g cfg hflag fuel rest depth
      (fetchGo g cfg fuel id depth items).2
    cases hr : (fetchGo g cfg fuel id depth items).1 with
    | none => simpa using h2
    | some n =>
      have h1 := fetchGo_height g cfg hflag fuel id depth items n hr
      simp only [listHeight]
      omega
termination_by (fuel, ids.length + 1)

end

mutual

/-- Beyond the depth allowance a fetched tree only ever expands databases:
every node at or past the allowance that has children is a database. -/
theorem fetchGo_dbOk (g : Graph) (cfg : Config) (fuel : Nat) (id : Nat)
    (depth : Nat) (items : Nat) (n : ContentNode)
    (hn : (fetchGo g cfg fuel id depth items).1 = some n) :
    dbOkNode depth n = true := by
  match fuel with
  | 0 => simp [fetchGo] at hn
  | fuel + 1 =>
    rw [fetchGo] at hn
    by_cases h0 : items = 0
    · simp [h0] at hn
    · simp only [h0, if_false] at hn
      cases hl : lookupNode g id with
      | none => rw [hl] at hn; exact absurd hn (by simp)
      | some nd =>
        rw [hl] at hn
        dsimp only at hn
        match depth with
        | d + 1 =>
          rw [if_pos (Nat.succ_pos d)] at hn
          have hh := fetchList_dbOk g cfg fuel nd.children d (items - 1)
          cases hn
          simpa [dbOkNode] using hh
        | 0 =>
          rw [if_neg (lt_irrefl 0)] at hn
          by_cases hdb : nd.kind = NodeKind.database ∧
              cfg.alwaysFetchDatabases = true
          · rw [if_pos hdb] at hn
            have hh := fetchList_dbOk g cfg fuel nd.children 0 (items - 1)
            cases hn
            simp [dbOkNode, hdb.1, hh]
          · rw [if_neg hdb] at hn
            cases hn
            simp [dbOkNode, dbOkList]
termination_by (fuel, 0)

/-- Beyond the depth allowance a fetched forest only ever expands databases. -/
theorem fetchList_dbOk (g : Graph) (cfg : Config) (fuel : Nat) (ids : List Nat)
    (depth : Nat) (items : Nat) :
    dbOkList depth (fetchList g cfg fuel ids depth items).1 = true := by
  match ids with
  | [] => simp [fetchList, dbOkList]
  | id :: rest =>
    rw [fetchList]
    have h2 := fetchList_dbOk g cfg fuel rest depth
      (fetchGo g cfg fuel id depth items).2
    cases hr : (fetchGo g cfg fuel id depth items).1 with
    | none => simpa using h2
    | some n =>
      have h1 := fetchGo_dbOk g cfg fuel id depth items n hr
      simp [dbOkList, h1, h2]
termination_by (fuel, ids.length + 1)

end

/-- Example remote graph: a root page containing a database containing a
block. -/
def gEx : Graph :=
  [(0, ⟨NodeKind.page, "root", [], [1]⟩),
   (1, ⟨NodeKind.database, "db", [], [2]⟩),
   (2, ⟨NodeKind.block, "leaf", [], []⟩)]

/-- Example configuration with `always_fetch_databases` on. -/
def cfgExT : Config := ⟨1, 10, "claude-xml", true, false, none, false, 300⟩

/-- Example configuration with `always_fetch_databases` off. -/
def cfgExF : Config := ⟨1, 10, "claude-xml", false, false, none, false, 300⟩

/-- C1: for every configuration and input graph, the number of content items
in the tree returned by `fetch_content` — which also counts every item
fetched during the run — is at most `config.limit`; the budget is one global
counter shared by all branches: items in the tree plus the unspent budget
always equal exactly `limit`. -/
theorem fetch_items_global_budget (g : Graph) (cfg : Config) (id : Nat) :
    sizeOpt (fetch_content g cfg id) + (fetchRun g cfg id).2 = cfg.limit ∧
    sizeOpt (fetch_content g cfg id) ≤ cfg.limit := by
  have h : sizeOpt (fetch_content g cfg id) + (fetchRun g cfg id).2 =
      cfg.limit :=
    fetchGo_acct g cfg (cfg.limit + 1) id cfg.maxDepth cfg.limit
  exact ⟨h, by omega⟩

/-- C2: no node of a fetched tree lies more than `config.max_depth` levels
below the root — when `always_fetch_databases` is off, the tree's height is
at most `max_depth`; in general the only nodes expanded at or beyond
`max_depth` are databases, so any node deeper than `max_depth` sits under a
database that was expanded regardless of remaining depth. -/
theorem fetch_depth_bound (g : Graph) (cfg : Config) (id : Nat)
    (n : ContentNode) (hn : fetch_content g cfg id = some n) :
    (cfg.alwaysFetchDatabases = false → nodeHeight n ≤ cfg.maxDepth) ∧
    dbOkNode cfg.maxDepth n = true := by
  constructor
  · intro hflag
    exact fetchGo_height g cfg hflag (cfg.limit + 1) id cfg.maxDepth cfg.limit
      n hn
  · exact fetchGo_dbOk g cfg (cfg.limit + 1) id cfg.maxDepth cfg.limit n hn

/-- Witness for C2 at a concrete graph: with the flag off the tree stops at
height 1; with the flag on the database below the depth horizon is still
expanded and every node past the horizon sits under a database. -/
theorem fetch_depth_bound_witness :
    nodeHeight (ContentNode.mk 0 NodeKind.page "root" []
        [ContentNode.mk 1 NodeKind.database "db" [] []]) ≤ 1 ∧
    dbOkNode 1 (ContentNode.mk 0 NodeKind.page "root" []
        [ContentNode.mk 1 NodeKind.database "db" []
          [ContentNode.mk 2 NodeKind.block "leaf" [] []]]) = true := by
  constructor
  · exact (fetch_depth_bound gEx cfgExF 0
      (ContentNode.mk 0 NodeKind.page "root" []
        [ContentNode.mk 1 NodeKind.database "db" [] []])
      (by simp [fetch_content, fetchRun, fetchGo, fetchList, lookupNode, gEx,
        cfgExF])).1 rfl
  · exact (fetch_depth_bound gEx cfgExT 0
      (ContentNode.mk 0 NodeKind.page "root" []
        [ContentNode.mk 1 NodeKind.database "db" []
          [ContentNode.mk 2 NodeKind.block "leaf" [] []]])
      (by simp [fetch_content, fetchRun, fetchGo, fetchList, lookupNode, gEx,
        cfgExT])).2

/-- Outcome of one underlying `fetch_fn` invocation: a payload or a failure. -/
inductive FetchOutcome where
  | ok (v : Nat)
  | err
deriving DecidableEq, Repr

/-- Modelled from the spec (§4.1 Cache, §3 CacheEntry, §5): state of the
request-coalescing cache, absent from src/ (it lives in the compiled
backend).  `store` maps key to (value, insertion time); `inflight` maps each
key with an outstanding `fetch_fn` call to the tasks awaiting it; `netCalls`
counts underlying `fetch_fn` invocations; `delivered` records which task
received which outcome. -/
structure CacheState where
  store : List (Nat × Nat × Nat)
  inflight : List (Nat × List Nat)
  netCalls : Nat
  delivered : List (Nat × FetchOutcome)
deriving DecidableEq, Repr

/-- Look a key up in the store, ignoring expiry. -/
def storeLookup (st : List (Nat × Nat × Nat)) (k : Nat) : Option (Nat × Nat) :=
  match st with
  | [] => none
  | (k', v, ins) :: rest => if k' = k then some (v, ins) else storeLookup rest k

/-- Modelled from the spec (§3, §4.1): lazy expiry check on read — an entry
whose expiry time `insertion + TTL` has been reached is treated as absent. -/
def freshLookup (ttl : Nat) (now : Nat) (st : List (Nat × Nat × Nat))
    (k : Nat) : Option Nat :=
  match storeLookup st k with
  | some (v, ins) => if now < ins + ttl then some v else none
  | none => none

/-- The waiters registered for a key's in-flight fetch, if any. -/
def inflightLookup (fl : List (Nat × List Nat)) (k : Nat) :
    Option (List Nat) :=
  match fl with
  | [] => none
  | (k', ws) :: rest => if k' = k then some ws else inflightLookup rest k

/-- Append a waiter to a key's in-flight entry. -/
def addWaiter (fl : List (Nat × List Nat)) (k : Nat) (t : Nat) :
    List (Nat × List Nat) :=
  match fl with
  | [] => []
  | (k', ws) :: rest =>
    if k' = k then (k', ws ++ [t]) :: rest else (k', ws) :: addWaiter rest k t

/-- Drop a key's in-flight entry. -/
def removeKey (fl : List (Nat × List Nat)) (k : Nat) :
    List (Nat × List Nat) :=
  match fl with
  | [] => []
  | (k', ws) :: rest =>
    if k' = k then rest else (k', ws) :: removeKey rest k

/-- Modelled from the spec (§4.1): task `t` enters `get_or_fetch` for key `k`
at time `now`.  A fresh entry is returned at once without invoking
`fetch_fn`; if the key is already in flight the task joins the waiters and no
new call is made; otherwise exactly one underlying `fetch_fn` call starts
with `t` as its first waiter. -/
def startReq (ttl : Nat) (now : Nat) (t : Nat) (k : Nat) (s : CacheState) :
    CacheState :=
  match freshLookup ttl now s.store k with
  | some v => { s with delivered := (t, FetchOutcome.ok v) :: s.delivered }
  | none =>
    match inflightLookup s.inflight k with
    | some _ => { s with inflight := addWaiter s.inflight k t }
    | none =>
      { s with inflight := (k, [t]) :: s.inflight, netCalls := s.netCalls + 1 }

/-- Modelled from the spec (§4.1): the in-flight `fetch_fn` call for key `k`
finishes at time `now` with outcome `r`.  Every coalesced waiter receives
`r`; on success the value is stored with the current timestamp; on failure
the key is not cached. -/
def complete (now : Nat) (k : Nat) (r : FetchOutcome) (s : CacheState) :
    CacheState :=
  match inflightLookup s.inflight k with
  | none => s
  | some ws =>
    let s1 := { s with inflight := removeKey s.inflight k,
                       delivered := ws.map (fun t => (t, r)) ++ s.delivered }
    match r with
    | FetchOutcome.ok v => { s1 with store := (k, v, now) :: s1.store }
    | FetchOutcome.err => s1

/-- C3: with caching enabled, two concurrent `get_or_fetch` calls for the
same key (both started before the underlying fetch finishes, the key having
no fresh entry) cause exactly one underlying `fetch_fn` invocation; both
waiters are delivered the one identical outcome, and on failure both receive
the failure and the store is left unchanged (the key is not cached). -/
theorem cache_coalesced_single_fetch (s : CacheState)
    (ttl now1 now2 now3 t1 t2 k : Nat) (r : FetchOutcome)
    (h1 : freshLookup ttl now1 s.store k = none)
    (h2 : freshLookup ttl now2 s.store k = none)
    (h3 : inflightLookup s.inflight k = none) :
    (complete now3 k r (startReq ttl now2 t2 k
        (startReq ttl now1 t1 k s))).netCalls = s.netCalls + 1 ∧
    (complete now3 k r (startReq ttl now2 t2 k
        (startReq ttl now1 t1 k s))).delivered =
      (t1, r) :: (t2, r) :: s.delivered ∧
    (r = FetchOutcome.err →
      (complete now3 k r (startReq ttl now2 t2 k
        (startReq ttl now1 t1 k s))).store = s.store) := by
  have hs1 : startReq ttl now1 t1 k s =
      { s with inflight := (k, [t1]) :: s.inflight,
               netCalls := s.netCalls + 1 } := by
    rw [startReq, h1, h3]
  rw [hs1]
  have hs2 : startReq ttl now2 t2 k
      { s with inflight := (k, [t1]) :: s.inflight,
               netCalls := s.netCalls + 1 } =
      { s with inflight := (k, [t1, t2]) :: s.inflight,
               netCalls := s.netCalls + 1 } := by
    rw [startReq]
    simp only [h2]
    simp [inflightLookup, addWaiter]
  rw [hs2]
  rw [complete]
  simp only [inflightLookup, if_pos rfl]
  cases r with
  | ok v => simp
  | err => simp

/-- Witness for C3: from the empty cache state, tasks 1 and 2 both request
key 7; one network call happens and both receive the payload 42. -/
theorem cache_coalesced_single_fetch_witness :
    (complete 5 7 (FetchOutcome.ok 42) (startReq 300 0 2 7
        (startReq 300 0 1 7 ⟨[], [], 0, []⟩))).netCalls = 0 + 1 ∧
    (complete 5 7 (FetchOutcome.ok 42) (startReq 300 0 2 7
        (startReq 300 0 1 7 ⟨[], [], 0, []⟩))).delivered =
      (1, FetchOutcome.ok 42) :: (2, FetchOutcome.ok 42) :: [] ∧
    (FetchOutcome.ok 42 = FetchOutcome.err →
      (complete 5 7 (FetchOutcome.ok 42) (startReq 300 0 2 7
        (startReq 300 0 1 7 ⟨[], [], 0, []⟩))).store = []) :=
  cache_coalesced_single_fetch ⟨[], [], 0, []⟩ 300 0 0 5 1 2 7
    (FetchOutcome.ok 42) (by rfl) (by rfl) (by rfl)

/-- C4: a `get_or_fetch` issued at or after the entry's expiry time
`insertion + TTL` never returns the stale cached value: nothing is delivered
from the store, and a new underlying `fetch_fn` call is started even though a
prior cached value exists. -/
theorem cache_ttl_expired_refetch (s : CacheState)
    (ttl now t k v ins : Nat)
    (hs : storeLookup s.store k = some (v, ins))
    (hexp : ins + ttl ≤ now)
    (hfl : inflightLookup s.inflight k = none) :
    (startReq ttl now t k s).netCalls = s.netCalls + 1 ∧
    (startReq ttl now t k s).delivered = s.delivered ∧
    inflightLookup (startReq ttl now t k s).inflight k = some [t] := by
  have hfresh : freshLookup ttl now s.store k = none := by
    rw [freshLookup, hs]
    dsimp only
    rw [if_neg (by omega)]
  rw [startReq, hfresh, hfl]
  refine ⟨rfl, rfl, ?_⟩
  simp [inflightLookup]

/-- Witness for C4: key 7 was cached at time 0 with TTL 300; a request at
time 300 makes a fresh network call instead of serving the stale value. -/
theorem cache_ttl_expired_refetch_witness :
    (startReq 300 300 1 7 ⟨[(7, 42, 0)], [], 3, []⟩).netCalls = 3 + 1 ∧
    (startReq 300 300 1 7 ⟨[(7, 42, 0)], [], 3, []⟩).delivered = [] ∧
    inflightLookup (startReq 300 300 1 7
      ⟨[(7, 42, 0)], [], 3, []⟩).inflight 7 = some [1] :=
  cache_ttl_expired_refetch ⟨[(7, 42, 0)], [], 3, []⟩ 300 300 1 7 42 0
    (by rfl) (by omega) (by rfl)

/-- Pipeline error taxonomy (§7), restricted to the cases the claims need. -/
inductive PipelineError where
  | configError
  | notFoundError
deriving DecidableEq, Repr

/-- XML tag used for each node kind in the claude-xml template. -/
def kindTag : NodeKind → String
  | NodeKind.page => "page"
  | NodeKind.database => "database"
  | NodeKind.block => "block"

/-- Render the properties section of a node. -/
def renderProps : List (String × String) → String
  | [] => ""
  | (k, v) :: rest =>
    "<property name=\"" ++ k ++ "\">" ++ v ++ "</property>" ++ renderProps rest

mutual

/-- Modelled from the spec (§4.5 Renderer, absent from src/): render one node
in document order — tag, title, optional properties section, children. -/
def renderNode (cfg : Config) (n : ContentNode) : String :=
  match n with
  | .mk _ k title props cs =>
    "<" ++ kindTag k ++ ">" ++ title ++
      (if cfg.includeProperties then renderProps props else "") ++
      renderForest cfg cs ++ "</" ++ kindTag k ++ ">"

/-- Render a forest of siblings in document order. -/
def renderForest (cfg : Config) : List ContentNode → String
  | [] => ""
  | c :: cs => renderNode cfg c ++ renderForest cfg cs

end

/-- Modelled from the spec (§4.5): the claude-xml built-in template — an
optional leading instruction block, then the tree. -/
def renderClaudeXml (t : ContentNode) (cfg : Config) : String :=
  (match cfg.instruction with
   | some ins => "<instruction>" ++ ins ++ "</instruction>"
   | none => "") ++ renderNode cfg t

/-- Modelled from the spec (§4.5): the fixed registry of built-in templates. -/
def templateRegistry : List (String × (ContentNode → Config → String)) :=
  [("claude-xml", renderClaudeXml)]

/-- Look a template name up in a registry. -/
def lookupTemplate (reg : List (String × (ContentNode → Config → String)))
    (name : String) : Option (ContentNode → Config → String) :=
  match reg with
  | [] => none
  | (n, f) :: rest => if n = name then some f else lookupTemplate rest name

/-- Resolve a template name against the fixed registry. -/
def resolveTemplate (name : String) : Option (ContentNode → Config → String) :=
  lookupTemplate templateRegistry name

/-- The names of the built-in templates. -/
def templateNames : List String := templateRegistry.map Prod.fst

/-- Modelled from the spec (§4.6): `render_content(tree, config)` — resolve
the template and render; an unknown name is a configuration error, never a
silent fallback. -/
def render_content (t : ContentNode) (cfg : Config) :
    Except PipelineError String :=
  match resolveTemplate cfg.template with
  | none => Except.error PipelineError.configError
  | some f => Except.ok (f t cfg)

/-- Modelled from the spec (§4.5): rendering threaded through the pipeline's
effect state — the Renderer performs no network or cache access, so the state
is passed through untouched. -/
def renderContentEff (t : ContentNode) (cfg : Config) (s : CacheState) :
    Except PipelineError String × CacheState :=
  (render_content t cfg, s)

/-- Modelled from the spec (§4.6): `render_content` with the tree it leaves
behind made explicit — the tree is not mutated, so the caller can re-render
it under a different template without refetching. -/
def renderContentSt (t : ContentNode) (cfg : Config) :
    Except PipelineError String × ContentNode :=
  (render_content t cfg, t)

/-- A name absent from a registry's name list never resolves. -/
theorem lookupTemplate_not_mem
    (reg : List (String × (ContentNode → Config → String))) (name : String)
    (h : name ∉ reg.map Prod.fst) : lookupTemplate reg name = none := by
  induction reg with
  | nil => rfl
  | cons p rest ih =>
    rw [lookupTemplate]
    rw [if_neg (by simp at h; exact fun he => h.1 he.symm)]
    exact ih (by simp at h ⊢; exact h.2)

/-- Modelled from the spec (§4.6, §7): `fetch_and_render` — the template is
resolved before any fetching, so a bad name aborts with `ConfigError` and
zero network calls; otherwise the tree is fetched and rendered, the second
component counting the network calls made. -/
def fetch_and_render (g : Graph) (cfg : Config) (id : Nat) :
    Except PipelineError String × Nat :=
  match resolveTemplate cfg.template with
  | none => (Except.error PipelineError.configError, 0)
  | some f =>
    let r := fetchRun g cfg id
    match r.1 with
    | none => (Except.error PipelineError.notFoundError, cfg.limit - r.2)
    | some t => (Except.ok (f t cfg), cfg.limit - r.2)

/-- C5: rendering is deterministic and effect-free — the text is independent
of the effect state, two successive calls on the same tree and config return
byte-identical text, and the cache/network state (including the network-call
counter) is left untouched. -/
theorem render_deterministic_effect_free (t : ContentNode) (cfg : Config)
    (s s' : CacheState) :
    (renderContentEff t cfg s).1 = (renderContentEff t cfg s').1 ∧
    (renderContentEff t cfg ((renderContentEff t cfg s).2)).1 =
      (renderContentEff t cfg s).1 ∧
    (renderContentEff t cfg s).2 = s ∧
    (renderContentEff t cfg s).2.netCalls = s.netCalls :=
  ⟨rfl, rfl, rfl, rfl⟩

/-- C6: `render_content` leaves its input tree unchanged — after rendering
with template A the tree is exactly the one supplied, and rendering it again
with a different template B gives precisely what rendering the original tree
with B gives, with the tree again unchanged. -/
theorem render_no_tree_mutation (t : ContentNode) (cfgA cfgB : Config) :
    (renderContentSt t cfgA).2 = t ∧
    (renderContentSt (renderContentSt t cfgA).2 cfgB).1 =
      render_content t cfgB ∧
    (renderContentSt (renderContentSt t cfgA).2 cfgB).2 = t :=
  ⟨rfl, rfl, rfl⟩

/-- C7: a configuration whose template name is not in the fixed registry
makes the pipeline fail with `ConfigError` before any network call (zero
calls made); the unknown name is never replaced by a fallback template. -/
theorem unknown_template_config_error (g : Graph) (cfg : Config) (id : Nat)
    (h : cfg.template ∉ templateNames) :
    fetch_and_render g cfg id =
      (Except.error PipelineError.configError, 0) := by
  rw [fetch_and_render]
  rw [resolveTemplate, lookupTemplate_not_mem templateRegistry cfg.template h]

/-- Witness for C7: template name "nonexistent" aborts with `ConfigError`
and zero network calls on the example graph. -/
theorem unknown_template_config_error_witness :
    fetch_and_render gEx
      ⟨1, 10, "nonexistent", false, false, none, false, 300⟩ 0 =
      (Except.error PipelineError.configError, 0) :=
  unknown_template_config_error gEx
    ⟨1, 10, "nonexistent", false, false, none, false, 300⟩ 0
    (by simp [templateNames, templateRegistry])

/-- What the user supplied on the command line: optional valued arguments are
`none` when absent, `store_true` flags are `false` when absent. -/
structure ParserOpts where
  outputFile : Option String
  template : Option String
  depth : Option Int
  limit : Option Int
  pipe : Bool
  alwaysFetchDatabases : Bool
  includeProperties : Bool
  instruction : Option String
  noCache : Bool
  cacheTtl : Option Int
  concurrency : Option Int
  apiKey : Option String

/-- The parsed argument namespace produced by `build_parser`
(src/python/notion2prompt/cli.py:14-85), one field per argument. -/
structure CliArgs where
  notionInput : String
  outputFile : Option String
  template : String
  depth : Int
  limit : Int
  pipe : Bool
  alwaysFetchDatabases : Bool
  includeProperties : Bool
  instruction : Option String
  noCache : Bool
  cacheTtl : Int
  concurrency : Option Int
  apiKey : Option String
deriving DecidableEq, Repr

/-- Embedded from `build_parser` (cli.py:14-85): argparse fills each argument
from the command line when supplied and from its declared default otherwise
(template "claude-xml", depth 5, limit 1000, cache-ttl 300; flags default to
false; output-file, instruction, concurrency and api-key default to None). -/
def parseArgs (input : String) (o : ParserOpts) : CliArgs :=
  { notionInput := input
    outputFile := o.outputFile
    template := o.template.getD "claude-xml"
    depth := o.depth.getD 5
    limit := o.limit.getD 1000
    pipe := o.pipe
    alwaysFetchDatabases := o.alwaysFetchDatabases
    includeProperties := o.includeProperties
    instruction := o.instruction
    noCache := o.noCache
    cacheTtl := o.cacheTtl.getD 300
    concurrency := o.concurrency
    apiKey := o.apiKey }

/-- The keyword arguments `main` passes to `fetch_and_render`
(cli.py:96-108). -/
structure FetchAndRenderParams where
  notionId : String
  apiKey : Option String
  depth : Int
  limit : Int
  template : String
  alwaysFetchDatabases : Bool
  includeProperties : Bool
  instruction : Option String
  noCache : Bool
  cacheTtl : Int
  concurrency : Option Int
deriving DecidableEq, Repr

/-- Embedded from `main` (cli.py:94-108): the parsed arguments are forwarded
field by field to `fetch_and_render`. -/
def mainFetchParams (a : CliArgs) : FetchAndRenderParams :=
  { notionId := a.notionInput
    apiKey := a.apiKey
    depth := a.depth
    limit := a.limit
    template := a.template
    alwaysFetchDatabases := a.alwaysFetchDatabases
    includeProperties := a.includeProperties
    instruction := a.instruction
    noCache := a.noCache
    cacheTtl := a.cacheTtl
    concurrency := a.concurrency }

/-- Observable outcome of one `main` run: what was printed to stdout and
stderr, the process exit code, and the files written. -/
structure ProcResult where
  stdout : String
  stderr : String
  exitCode : Nat
  fileWrites : List (String × String)
deriving DecidableEq, Repr

/-- A command line with no optional arguments supplied. -/
def emptyOpts : ParserOpts :=
  ⟨none, none, none, none, false, false, false, none, false, none, none, none⟩

/-- Embedded from `main` (cli.py:94-121): if `fetch_and_render` raises, the
message is printed to stderr prefixed "Error: " and the process exits with
code 1; on success the prompt is written to the output file (confirmation to
stderr) when one was given, and otherwise printed to stdout with no trailing
newline — the `--pipe` branch and the default branch are identical. -/
def cliMain (args : CliArgs) (result : Except String String) : ProcResult :=
  match result with
  | Except.error e => ⟨"", "Error: " ++ e ++ "\n", 1, []⟩
  | Except.ok prompt =>
    match args.outputFile with
    | some path =>
      ⟨"", "Prompt saved to " ++ path ++ "\n", 0, [(path, prompt)]⟩
    | none =>
      if args.pipe then ⟨prompt, "", 0, []⟩ else ⟨prompt, "", 0, []⟩

/-- C8: with nothing supplied on the command line, the parser's enforced
defaults reach `fetch_and_render` unchanged: depth 5, limit 1000, template
"claude-xml", cache TTL 300 seconds, caching enabled (`no_cache` false), and
no concurrency value (left to the implementation's default). -/
theorem cli_defaults_forwarded (input : String) :
    (mainFetchParams (parseArgs input emptyOpts)).depth = 5 ∧
    (mainFetchParams (parseArgs input emptyOpts)).limit = 1000 ∧
    (mainFetchParams (parseArgs input emptyOpts)).template = "claude-xml" ∧
    (mainFetchParams (parseArgs input emptyOpts)).cacheTtl = 300 ∧
    (mainFetchParams (parseArgs input emptyOpts)).noCache = false ∧
    (mainFetchParams (parseArgs input emptyOpts)).concurrency = none :=
  ⟨rfl, rfl, rfl, rfl, rfl, rfl⟩

/-- C9: when `fetch_and_render` fails, `main` prints the message prefixed
"Error: " to stderr, exits with the non-zero code 1, and writes no prompt to
stdout or to any file; when it succeeds `main` does not exit non-zero. -/
theorem cli_error_reported_nonzero_exit (args : CliArgs) (e p : String) :
    (cliMain args (Except.error e)).stderr = "Error: " ++ e ++ "\n" ∧
    (cliMain args (Except.error e)).exitCode = 1 ∧
    (cliMain args (Except.error e)).exitCode ≠ 0 ∧
    (cliMain args (Except.error e)).stdout = "" ∧
    (cliMain args (Except.error e)).fileWrites = [] ∧
    (cliMain args (Except.ok p)).exitCode = 0 := by
  obtain ⟨ni, onf, tpl, d, l, pipe, afd, ip, ins, nc, ct, cc, ak⟩ := args
  refine ⟨rfl, rfl, Nat.one_ne_zero, rfl, rfl, ?_⟩
  cases onf with
  | some path => rfl
  | none => cases pipe <;> rfl

/-- C10: with no output file, `main` writes exactly the prompt to stdout
(no trailing newline) and behaves identically with and without `--pipe`;
with an output file, the prompt goes only to that file, the confirmation
goes to stderr, and stdout stays empty. -/
theorem cli_stdout_exact_pipe_irrelevant (args : CliArgs) (p path : String) :
    (cliMain { args with outputFile := none } (Except.ok p)).stdout = p ∧
    cliMain { args with outputFile := none, pipe := true } (Except.ok p) =
      cliMain { args with outputFile := none, pipe := false } (Except.ok p) ∧
    cliMain { args with outputFile := some path } (Except.ok p) =
      ⟨"", "Prompt saved to " ++ path ++ "\n", 0, [(path, p)]⟩ := by
  obtain ⟨ni, onf, tpl, d, l, pipe, afd, ip, ins, nc, ct, cc, ak⟩ := args
  refine ⟨?_, rfl, rfl⟩
  cases pipe <;> rfl

end Notion2Prompt
